import Mathlib

/-!
Verification of the Calculator repository core (expression evaluator,
result cache and numeric formatter) against its design specification.

The embedding below is a shallow model of `src/unnamed/part_000` (the module
holding `safeEvaluate` and `formatNumber`) and of the error enum in
`src/types/calculator.ts`.  Host numbers are modelled by rationals
(`ℚ`): every comparison and guard appearing in the source is exact at the
inputs the development evaluates, and the transcendental primitives of the
host `Math` library are kept as parameters (a `MathHost` record), exactly as
the source delegates to them.
-/

set_option autoImplicit false

set_option allowUnsafeReducibility true

attribute [semireducible] Rat.add Rat.sub Rat.neg Rat.mul Rat.div Rat.inv
  Rat.blt Rat.floor Rat.ceil Rat.normalize

namespace Calculator

/-- Model of the `CalculationError` enum from `src/types/calculator.ts`. -/
inductive CalculationError where
  | DOMAIN
  | UNDEFINED
  | SYNTAX
  | OVERFLOW
  | INVALID
  | UNKNOWN
deriving DecidableEq, Repr

/-- Model of the string value carried by each `CalculationError` enum member. -/
def CalculationError.message : CalculationError → String
  | .DOMAIN => "Domain error"
  | .UNDEFINED => "Undefined"
  | .SYNTAX => "Syntax error"
  | .OVERFLOW => "Overflow"
  | .INVALID => "Invalid expression"
  | .UNKNOWN => "Unknown error"

/-- Model of a host (JavaScript) number: a finite value, one of the two
infinities, or NaN.  Finite values are carried as rationals. -/
inductive JsNum where
  | finite (q : ℚ)
  | posInf
  | negInf
  | nan
deriving DecidableEq, Repr

/-- Model of the host `isFinite` test. -/
def JsNum.isFiniteNum : JsNum → Bool
  | .finite _ => true
  | _ => false

/-- Model of a value thrown by host code: an `Error` instance carrying a
message string, or any other thrown value (the `error instanceof Error`
distinction made by the catch block of `safeEvaluate`). -/
inductive JsThrown where
  | err (msg : String)
  | nonError
deriving DecidableEq, Repr

/-- Model of a host value produced by the dynamically built function: a
number, or anything else (object, array, string, undefined...), which the
result validation of `safeEvaluate` rejects via its `typeof` test. -/
inductive JsResVal where
  | num (n : JsNum)
  | nonNum
deriving DecidableEq, Repr

/-- Outcome of running the dynamically built function at line 106 of the
source: a returned value or a thrown one. -/
inductive EvalOutcome where
  | value (v : JsResVal)
  | thrown (t : JsThrown)
deriving DecidableEq, Repr

/-- An evaluation host: the behaviour of
`new Function(&quot;Math&quot;, &quot;return &quot; + sanitized)(mathContext)`
as a function of the sanitized text.  `safeEvaluate` is modelled
parametrically in it; a concrete host (`jsEval`) is defined further below. -/
def EvalHost : Type := String → EvalOutcome

/-- Scan over the suffixes of a character list looking for `needle` as a
prefix of one of them. -/
def containsAux (needle : List Char) : List Char → Bool
  | [] => needle.isEmpty
  | c :: rest => needle.isPrefixOf (c :: rest) || containsAux needle rest

/-- Decides whether `needle` occurs as a substring of `hay`: model of
`String.prototype.includes` used by the catch block. -/
def containsStr (hay needle : String) : Bool :=
  containsAux needle.toList hay.toList

/-- Model of the catch block of `safeEvaluate` (lines 114-131): an `Error`
whose message contains one of the four guard words is mapped to that kind,
any other `Error` is mapped to SYNTAX, and a thrown non-`Error` value is
mapped to UNKNOWN. -/
def classifyThrown : JsThrown → CalculationError
  | .err m =>
    if containsStr m "Domain" then .DOMAIN
    else if containsStr m "Undefined" then .UNDEFINED
    else if containsStr m "Overflow" then .OVERFLOW
    else if containsStr m "Invalid" then .INVALID
    else .SYNTAX
  | .nonError => .UNKNOWN

/-- Model of `expression.replace(/\s+/g, &quot;&quot;)`: drop every whitespace
character. -/
def sanitize (s : String) : String :=
  String.mk (s.toList.filter (fun c => !c.isWhitespace))

/-- Membership in the character class of the validation regex
`/^[0-9+\-*\/().Math\w,[\]]+$/`: digits, ASCII letters, underscore
(`\w`, which also covers the literal `M a t h`), the four operators,
parentheses, dot, comma and square brackets. -/
def allowedChar (c : Char) : Bool :=
  c.isDigit || c.isAlpha || c = '_' ||
  c = '+' || c = '-' || c = '*' || c = '/' ||
  c = '(' || c = ')' || c = '.' || c = ',' || c = '[' || c = ']'

/-- Model of the full validation regex test: the string is non-empty and
every character belongs to the allowed class. -/
def hasValidChars (s : String) : Bool :=
  !s.toList.isEmpty && s.toList.all allowedChar

/-- Count of occurrences of a character, modelling
`(sanitized.match(/\(/g) || []).length`. -/
def countChar (s : String) (c : Char) : Nat :=
  (s.toList.filter (fun x => x = c)).length

/-- Model of lines 90-131 of `safeEvaluate`: the cache-free part of the
pipeline.  Whitespace is removed, the character class and the parenthesis
balance are checked, the host evaluates the sanitized text, a non-numeric or
non-finite result raises `Error(CalculationError.INVALID)` inside the `try`,
and every thrown value is reclassified by the catch block. -/
def pipelineEval (host : EvalHost) (expression : String) :
    Except CalculationError ℚ :=
  let sanitized := sanitize expression
  if !hasValidChars sanitized then .error .INVALID
  else if countChar sanitized '(' ≠ countChar sanitized ')' then .error .SYNTAX
  else
    match host sanitized with
    | .thrown t => .error (classifyThrown t)
    | .value (.num (.finite q)) => .ok q
    | .value _ =>
        .error (classifyThrown (JsThrown.err CalculationError.INVALID.message))

/-- The result cache, modelled as an insertion-ordered association list:
the model of the insertion-ordered `Map&lt;string, number&gt;` at line 4. -/
abbrev Cache : Type := List (String × ℚ)

/-- Model of `resultCache.get` / `resultCache.has`: first (and by
construction only) binding of the key. -/
def cacheGet : Cache → String → Option ℚ
  | [], _ => none
  | (k, v) :: rest, key => if k = key then some v else cacheGet rest key

/-- Model of `resultCache.set`: an existing key is updated in place keeping
its insertion position, a new key is appended at the end. -/
def cacheSet : Cache → String → ℚ → Cache
  | [], key, val => [(key, val)]
  | (k, v) :: rest, key, val =>
    if k = key then (key, val) :: rest else (k, v) :: cacheSet rest key val

/-- Model of lines 81-84 of `safeEvaluate`: when the size already exceeds
100, the first-inserted entry is deleted. -/
def cacheEvict (c : Cache) : Cache :=
  if c.length > 100 then c.tail else c

/-- Model of `safeEvaluate` (lines 79-132): evict when over the threshold,
answer from the cache on a hit, otherwise run the pipeline and store the
result on success.  The returned pair is (result, cache after the call). -/
def safeEvaluate (host : EvalHost) (cache : Cache) (expression : String) :
    Except CalculationError ℚ × Cache :=
  let cache1 := cacheEvict cache
  match cacheGet cache1 expression with
  | some v => (.ok v, cache1)
  | none =>
    match pipelineEval host expression with
    | .ok r => (.ok r, cacheSet cache1 expression r)
    | .error k => (.error k, cache1)

/-- Caches reachable during operation are consistent: every stored binding
is the pipeline result of its own key. -/
def Consistent (host : EvalHost) (c : Cache) : Prop :=
  ∀ p ∈ c, pipelineEval host p.1 = .ok p.2

/-- Record of the untouched host `Math` primitives that the source delegates
to (`Math.sin`, `Math.asin`, `Math.log10`, ...): the transcendental
functions have no exact rational counterpart, so they stay parameters of
the development, exactly as the source treats them as library calls.
`pow` may produce a non-finite value, hence its `JsNum` codomain. -/
structure MathHost where
  hsin : ℚ → ℚ
  hcos : ℚ → ℚ
  htan : ℚ → ℚ
  hasin : ℚ → ℚ
  hacos : ℚ → ℚ
  hatan : ℚ → ℚ
  hlog10 : ℚ → ℚ
  hlog : ℚ → ℚ
  hsqrt : ℚ → ℚ
  hpow : ℚ → ℚ → JsNum
  hPI : ℚ
  hE : ℚ

/-- Truncation toward zero, as performed by the host remainder operator. -/
def ratTrunc (q : ℚ) : ℤ :=
  if 0 ≤ q then ⌊q⌋ else ⌈q⌉

/-- Model of the host `%` operator on numbers (remainder with the sign of
the dividend). -/
def jsRem (a b : ℚ) : ℚ :=
  a - b * (ratTrunc (a / b) : ℚ)

/-- The angle normalization `((x % 360) + 360) % 360` used by the
trigonometric entries of the math context. -/
def normalize360 (x : ℚ) : ℚ :=
  jsRem (jsRem x 360 + 360) 360

/-- The 1e-10 tolerance used by the tan asymptote guard. -/
def tol : ℚ := 1 / 10 ^ 10

/-- Model of `mathContext.sin` (degrees in, lines 10-13). -/
def ctxSin (h : MathHost) (x : ℚ) : Except JsThrown ℚ :=
  let n := normalize360 x
  .ok (h.hsin (n * h.hPI / 180))

/-- Model of `mathContext.cos` with its special-cased exact angles
(lines 14-24). -/
def ctxCos (h : MathHost) (x : ℚ) : Except JsThrown ℚ :=
  let n := normalize360 x
  if n = 0 ∨ n = 360 then .ok 1
  else if n = 90 ∨ n = 270 then .ok 0
  else if n = 180 then .ok (-1)
  else if n = 60 ∨ n = 300 then .ok (1 / 2)
  else if n = 120 ∨ n = 240 then .ok (-(1 / 2))
  else .ok (h.hcos (n * h.hPI / 180))

/-- Model of `mathContext.tan` (lines 25-40): the asymptote guard throws
`Error(CalculationError.UNDEFINED)` within 1e-10 of 90 or 270 degrees,
notable angles are special-cased, anything else delegates to the host. -/
def ctxTan (h : MathHost) (x : ℚ) : Except JsThrown ℚ :=
  let n := normalize360 x
  if |n - 90| < tol ∨ |n - 270| < tol then
    .error (.err CalculationError.UNDEFINED.message)
  else if n = 0 ∨ n = 180 ∨ n = 360 then .ok 0
  else if n = 45 ∨ n = 225 then .ok 1
  else if n = 135 ∨ n = 315 then .ok (-1)
  else if n = 60 then .ok (h.hsqrt 3)
  else if n = 240 then .ok (h.hsqrt 3)
  else if n = 120 ∨ n = 300 then .ok (-(h.hsqrt 3))
  else .ok (h.htan (n * h.hPI / 180))

/-- Model of `mathContext.asin` (lines 43-46): outside `[-1,1]` it throws
`Error(CalculationError.DOMAIN)`, inside it returns degrees. -/
def ctxAsin (h : MathHost) (x : ℚ) : Except JsThrown ℚ :=
  if |x| > 1 then .error (.err CalculationError.DOMAIN.message)
  else .ok (h.hasin x * 180 / h.hPI)

/-- Model of `mathContext.acos` (lines 47-50). -/
def ctxAcos (h : MathHost) (x : ℚ) : Except JsThrown ℚ :=
  if |x| > 1 then .error (.err CalculationError.DOMAIN.message)
  else .ok (h.hacos x * 180 / h.hPI)

/-- Model of `mathContext.atan` (line 51): total, degrees out. -/
def ctxAtan (h : MathHost) (x : ℚ) : Except JsThrown ℚ :=
  .ok (h.hatan x * 180 / h.hPI)

/-- Model of `mathContext.log` (base 10, lines 54-57): non-positive
arguments throw `Error(CalculationError.DOMAIN)`. -/
def ctxLog (h : MathHost) (x : ℚ) : Except JsThrown ℚ :=
  if x ≤ 0 then .error (.err CalculationError.DOMAIN.message)
  else .ok (h.hlog10 x)

/-- Model of `mathContext.ln` (natural, lines 58-61). -/
def ctxLn (h : MathHost) (x : ℚ) : Except JsThrown ℚ :=
  if x ≤ 0 then .error (.err CalculationError.DOMAIN.message)
  else .ok (h.hlog x)

/-- Model of `mathContext.sqrt` (lines 64-67): negative arguments throw
`Error(CalculationError.DOMAIN)`. -/
def ctxSqrt (h : MathHost) (x : ℚ) : Except JsThrown ℚ :=
  if x < 0 then .error (.err CalculationError.DOMAIN.message)
  else .ok (h.hsqrt x)

/-- Model of `mathContext.pow` (lines 68-72): a non-finite host result
throws `Error(CalculationError.OVERFLOW)`. -/
def ctxPow (h : MathHost) (b e : ℚ) : Except JsThrown ℚ :=
  match h.hpow b e with
  | .finite q => .ok q
  | _ => .error (.err CalculationError.OVERFLOW.message)

/-! The concrete evaluation host.  Line 106 of the source hands the
sanitized text to the host language: the dynamically built function body
`return sanitized` is evaluated with the single parameter `Math` bound to
`mathContext`.  The model below implements that evaluation for the closed
grammar the calculator emits: numeric literals, the four binary operators
with standard precedence, unary sign, parentheses, member access on the
`Math` parameter and one- or two-argument calls.  A bare identifier other
than `Math` is unbound in the function scope and raises a reference error
whose message is `name is not defined`; text outside the grammar raises an
early error, modelled with a message starting `SyntaxError`.  Array
literals and the spread-copied untouched `Math` members (abs, floor, ...)
are not exercised by any claim and are modelled as absent. -/

/-- Token alphabet of the modelled host lexer. -/
inductive Tok where
  | num (q : ℚ)
  | ident (s : String)
  | plus
  | minus
  | star
  | slash
  | lparen
  | rparen
  | dot
  | comma
  | lbrack
  | rbrack
deriving DecidableEq, Repr

/-- Numeric value of a digit run. -/
def digitsToNat (ds : List Char) : Nat :=
  ds.foldl (fun a c => 10 * a + (c.toNat - 48)) 0

/-- Identifier-start characters of the host lexer (the sanitized alphabet
contains no dollar sign, so letters and underscore suffice). -/
def isIdentStartCh (c : Char) : Bool := c.isAlpha || c = '_'

/-- Identifier-continuation characters of the host lexer. -/
def isIdentCh (c : Char) : Bool := c.isAlpha || c.isDigit || c = '_'

/-- Lexer of the modelled host, fuelled by the input length.  A digit run
with an optional fractional part is a number (a dot directly followed by a
digit also starts a number, as in the host language); letter runs are
identifiers; the remaining allowed characters are punctuators. -/
def tokenize : Nat → List Char → Option (List Tok)
  | _, [] => some []
  | 0, _ :: _ => none
  | fuel + 1, c :: cs =>
    if c.isDigit then
      let intDs := (c :: cs).takeWhile Char.isDigit
      let rest := (c :: cs).dropWhile Char.isDigit
      match rest with
      | '.' :: cs2 =>
        let fracDs := cs2.takeWhile Char.isDigit
        let rest2 := cs2.dropWhile Char.isDigit
        (tokenize fuel rest2).map
          (fun ts =>
            Tok.num ((digitsToNat (intDs ++ fracDs) : ℚ) / 10 ^ fracDs.length) :: ts)
      | _ =>
        (tokenize fuel rest).map (fun ts => Tok.num (digitsToNat intDs) :: ts)
    else if isIdentStartCh c then
      let ds := (c :: cs).takeWhile isIdentCh
      let rest := (c :: cs).dropWhile isIdentCh
      (tokenize fuel rest).map (fun ts => Tok.ident (String.mk ds) :: ts)
    else if c = '.' then
      match cs with
      | d :: _ =>
        if d.isDigit then
          let fracDs := cs.takeWhile Char.isDigit
          let rest2 := cs.dropWhile Char.isDigit
          (tokenize fuel rest2).map
            (fun ts => Tok.num ((digitsToNat fracDs : ℚ) / 10 ^ fracDs.length) :: ts)
        else (tokenize fuel cs).map (fun ts => Tok.dot :: ts)
      | [] => (tokenize fuel cs).map (fun ts => Tok.dot :: ts)
    else if c = '+' then (tokenize fuel cs).map (fun ts => Tok.plus :: ts)
    else if c = '-' then (tokenize fuel cs).map (fun ts => Tok.minus :: ts)
    else if c = '*' then (tokenize fuel cs).map (fun ts => Tok.star :: ts)
    else if c = '/' then (tokenize fuel cs).map (fun ts => Tok.slash :: ts)
    else if c = '(' then (tokenize fuel cs).map (fun ts => Tok.lparen :: ts)
    else if c = ')' then (tokenize fuel cs).map (fun ts => Tok.rparen :: ts)
    else if c = ',' then (tokenize fuel cs).map (fun ts => Tok.comma :: ts)
    else if c = '[' then (tokenize fuel cs).map (fun ts => Tok.lbrack :: ts)
    else if c = ']' then (tokenize fuel cs).map (fun ts => Tok.rbrack :: ts)
    else none

/-- The four binary operators of the grammar. -/
inductive BinOp where
  | addOp
  | subOp
  | mulOp
  | divOp
deriving DecidableEq, Repr

/-- Abstract tree of the modelled host expressions. -/
inductive JsExpr where
  | lit (q : ℚ)
  | var (name : String)
  | member (obj : JsExpr) (field : String)
  | call1 (f : JsExpr) (a : JsExpr)
  | call2 (f : JsExpr) (a b : JsExpr)
  | unaryNeg (e : JsExpr)
  | unaryPlus (e : JsExpr)
  | bin (op : BinOp) (a b : JsExpr)
deriving Repr

mutual

/-- Additive level of the recursive-descent host parser (fuelled). -/
def parseAdd : Nat → List Tok → Option (JsExpr × List Tok)
  | 0, _ => none
  | f + 1, ts => do
    let (a, ts1) ← parseMul f ts
    parseAddLoop f a ts1

/-- Left-associated chain of `+` and `-`. -/
def parseAddLoop : Nat → JsExpr → List Tok → Option (JsExpr × List Tok)
  | 0, _, _ => none
  | f + 1, a, ts =>
    match ts with
    | .plus :: ts1 => do
      let (b, ts2) ← parseMul f ts1
      parseAddLoop f (JsExpr.bin .addOp a b) ts2
    | .minus :: ts1 => do
      let (b, ts2) ← parseMul f ts1
      parseAddLoop f (JsExpr.bin .subOp a b) ts2
    | _ => some (a, ts)

/-- Multiplicative level of the host parser. -/
def parseMul : Nat → List Tok → Option (JsExpr × List Tok)
  | 0, _ => none
  | f + 1, ts => do
    let (a, ts1) ← parseUnary f ts
    parseMulLoop f a ts1

/-- Left-associated chain of `*` and `/`. -/
def parseMulLoop : Nat → JsExpr → List Tok → Option (JsExpr × List Tok)
  | 0, _, _ => none
  | f + 1, a, ts =>
    match ts with
    | .star :: ts1 => do
      let (b, ts2) ← parseUnary f ts1
      parseMulLoop f (JsExpr.bin .mulOp a b) ts2
    | .slash :: ts1 => do
      let (b, ts2) ← parseUnary f ts1
      parseMulLoop f (JsExpr.bin .divOp a b) ts2
    | _ => some (a, ts)

/-- Unary sign level of the host parser. -/
def parseUnary : Nat → List Tok → Option (JsExpr × List Tok)
  | 0, _ => none
  | f + 1, .minus :: ts =>
    (parseUnary f ts).map (fun p => (JsExpr.unaryNeg p.1, p.2))
  | f + 1, .plus :: ts =>
    (parseUnary f ts).map (fun p => (JsExpr.unaryPlus p.1, p.2))
  | f + 1, ts => parsePostfix f ts

/-- Postfix level: member access and calls. -/
def parsePostfix : Nat → List Tok → Option (JsExpr × List Tok)
  | 0, _ => none
  | f + 1, ts => do
    let (a, ts1) ← parsePrimary f ts
    parsePostfixLoop f a ts1

/-- Chain of `.field` and `(args)` postfix operators. -/
def parsePostfixLoop : Nat → JsExpr → List Tok → Option (JsExpr × List Tok)
  | 0, _, _ => none
  | f + 1, a, ts =>
    match ts with
    | .dot :: .ident n :: ts1 => parsePostfixLoop f (JsExpr.member a n) ts1
    | .lparen :: ts1 => do
      let (arg1, ts2) ← parseAdd f ts1
      match ts2 with
      | .rparen :: ts3 => parsePostfixLoop f (JsExpr.call1 a arg1) ts3
      | .comma :: ts3 => do
        let (arg2, ts4) ← parseAdd f ts3
        match ts4 with
        | .rparen :: ts5 => parsePostfixLoop f (JsExpr.call2 a arg1 arg2) ts5
        | _ => none
      | _ => none
    | _ => some (a, ts)

/-- Primary level: literals, identifiers, parenthesized expressions. -/
def parsePrimary : Nat → List Tok → Option (JsExpr × List Tok)
  | 0, _ => none
  | _ + 1, .num q :: ts => some (JsExpr.lit q, ts)
  | _ + 1, .ident n :: ts => some (JsExpr.var n, ts)
  | f + 1, .lparen :: ts => do
    let (e, ts1) ← parseAdd f ts
    match ts1 with
    | .rparen :: ts2 => some (e, ts2)
    | _ => none
  | _, _ => none

end

/-- The registry of overridden functions of `mathContext`. -/
inductive RegistryFn where
  | rsin
  | rcos
  | rtan
  | rasin
  | racos
  | ratan
  | rlog
  | rln
  | rsqrt
  | rpow
deriving DecidableEq, Repr

/-- Runtime values of the modelled host: numbers, the registry functions,
the `Math` parameter itself (bound to `mathContext`), `undefined`, and a
catch-all for other non-numeric values such as concatenated strings. -/
inductive JsVal where
  | num (n : JsNum)
  | fn (r : RegistryFn)
  | mathObj
  | undefVal
  | other
deriving DecidableEq, Repr

/-- Property lookup on `mathContext`: the overridden functions, the added
lowercase constants `pi` and `e`, and the spread-retained uppercase `PI`
and `E`.  Untouched spread-copied members are outside every claim and
modelled as absent. -/
def mathMember (h : MathHost) : String → JsVal
  | "sin" => .fn .rsin
  | "cos" => .fn .rcos
  | "tan" => .fn .rtan
  | "asin" => .fn .rasin
  | "acos" => .fn .racos
  | "atan" => .fn .ratan
  | "log" => .fn .rlog
  | "ln" => .fn .rln
  | "sqrt" => .fn .rsqrt
  | "pow" => .fn .rpow
  | "pi" => .num (.finite h.hPI)
  | "e" => .num (.finite h.hE)
  | "PI" => .num (.finite h.hPI)
  | "E" => .num (.finite h.hE)
  | _ => .undefVal

/-- Host addition on numbers with the usual infinity and NaN rules. -/
def jsAdd : JsNum → JsNum → JsNum
  | .nan, _ => .nan
  | _, .nan => .nan
  | .finite a, .finite b => .finite (a + b)
  | .posInf, .negInf => .nan
  | .negInf, .posInf => .nan
  | .posInf, _ => .posInf
  | _, .posInf => .posInf
  | .negInf, _ => .negInf
  | _, .negInf => .negInf

/-- Host subtraction on numbers. -/
def jsSub : JsNum → JsNum → JsNum
  | .nan, _ => .nan
  | _, .nan => .nan
  | .finite a, .finite b => .finite (a - b)
  | .posInf, .posInf => .nan
  | .negInf, .negInf => .nan
  | .posInf, _ => .posInf
  | .negInf, _ => .negInf
  | .finite _, .posInf => .negInf
  | .finite _, .negInf => .posInf

/-- Host multiplication on numbers. -/
def jsMul : JsNum → JsNum → JsNum
  | .nan, _ => .nan
  | _, .nan => .nan
  | .finite a, .finite b => .finite (a * b)
  | .posInf, .posInf => .posInf
  | .posInf, .negInf => .negInf
  | .negInf, .posInf => .negInf
  | .negInf, .negInf => .posInf
  | .posInf, .finite b => if 0 < b then .posInf else if b < 0 then .negInf else .nan
  | .finite a, .posInf => if 0 < a then .posInf else if a < 0 then .negInf else .nan
  | .negInf, .finite b => if 0 < b then .negInf else if b < 0 then .posInf else .nan
  | .finite a, .negInf => if 0 < a then .negInf else if a < 0 then .posInf else .nan

/-- Host division on numbers; a nonzero value divided by zero is a signed
infinity and `0/0` is NaN (the model carries no negative zero). -/
def jsDiv : JsNum → JsNum → JsNum
  | .nan, _ => .nan
  | _, .nan => .nan
  | .finite a, .finite b =>
    if b = 0 then (if 0 < a then .posInf else if a < 0 then .negInf else .nan)
    else .finite (a / b)
  | .posInf, .posInf => .nan
  | .posInf, .negInf => .nan
  | .negInf, .posInf => .nan
  | .negInf, .negInf => .nan
  | .posInf, .finite b => if b < 0 then .negInf else .posInf
  | .negInf, .finite b => if b < 0 then .posInf else .negInf
  | .finite _, .posInf => .finite 0
  | .finite _, .negInf => .finite 0

/-- Host unary negation on numbers. -/
def jsNeg : JsNum → JsNum
  | .finite a => .finite (-a)
  | .posInf => .negInf
  | .negInf => .posInf
  | .nan => .nan

/-- ToNumber coercion of a runtime value: non-numeric values (undefined,
functions, the Math object, strings) coerce to NaN. -/
def toNumber : JsVal → JsNum
  | .num n => n
  | _ => .nan

/-- Lift of a math-context result into a runtime value. -/
def liftCtx (r : Except JsThrown ℚ) : Except JsThrown JsVal :=
  r.map (fun q => .num (.finite q))

/-- Application of a unary math-context function.  The claims only
exercise finite arguments; a non-finite argument is modelled as the NaN
the host transcendentals produce on it. -/
def applyUnaryCtx (f : ℚ → Except JsThrown ℚ) : JsNum → Except JsThrown JsVal
  | .finite q => liftCtx (f q)
  | _ => .ok (.num .nan)

/-- Dispatch of a registry function.  A one-argument call of `pow` leaves
its exponent `undefined`, which coerces to NaN, so the non-finite branch
covering it throws the overflow error exactly as `mathContext.pow` does on
the NaN result. -/
def applyRegistry (h : MathHost) (r : RegistryFn) (a b : JsNum) :
    Except JsThrown JsVal :=
  match r with
  | .rsin => applyUnaryCtx (ctxSin h) a
  | .rcos => applyUnaryCtx (ctxCos h) a
  | .rtan => applyUnaryCtx (ctxTan h) a
  | .rasin => applyUnaryCtx (ctxAsin h) a
  | .racos => applyUnaryCtx (ctxAcos h) a
  | .ratan => applyUnaryCtx (ctxAtan h) a
  | .rlog => applyUnaryCtx (ctxLog h) a
  | .rln => applyUnaryCtx (ctxLn h) a
  | .rsqrt => applyUnaryCtx (ctxSqrt h) a
  | .rpow =>
    match a, b with
    | .finite x, .finite y => liftCtx (ctxPow h x y)
    | _, _ => .error (.err CalculationError.OVERFLOW.message)

/-- Binary operators on runtime values: `+` concatenates when an operand
is an object, a function or a string (a non-numeric result), while `-`,
`*` and `/` coerce both operands to numbers. -/
def evalBin (op : BinOp) (a b : JsVal) : Except JsThrown JsVal :=
  match op with
  | .addOp =>
    match a, b with
    | .num _, .num _ => .ok (.num (jsAdd (toNumber a) (toNumber b)))
    | .num _, .undefVal => .ok (.num (jsAdd (toNumber a) (toNumber b)))
    | .undefVal, .num _ => .ok (.num (jsAdd (toNumber a) (toNumber b)))
    | .undefVal, .undefVal => .ok (.num .nan)
    | _, _ => .ok .other
  | .subOp => .ok (.num (jsSub (toNumber a) (toNumber b)))
  | .mulOp => .ok (.num (jsMul (toNumber a) (toNumber b)))
  | .divOp => .ok (.num (jsDiv (toNumber a) (toNumber b)))

/-- Evaluation of a parsed host expression in the scope of the dynamically
built function: the single binding in scope is `Math = mathContext`; every
other identifier raises a reference error `name is not defined`. -/
def evalExpr (h : MathHost) : JsExpr → Except JsThrown JsVal
  | .lit q => .ok (.num (.finite q))
  | .var n =>
    if n = "Math" then .ok .mathObj
    else .error (.err (n ++ " is not defined"))
  | .member o f => do
    let v ← evalExpr h o
    match v with
    | .mathObj => .ok (mathMember h f)
    | .undefVal => .error (.err ("Cannot read properties of undefined (reading " ++ f ++ ")"))
    | _ => .ok .undefVal
  | .unaryNeg e => do
    let v ← evalExpr h e
    .ok (.num (jsNeg (toNumber v)))
  | .unaryPlus e => do
    let v ← evalExpr h e
    .ok (.num (toNumber v))
  | .bin op a b => do
    let va ← evalExpr h a
    let vb ← evalExpr h b
    evalBin op va vb
  | .call1 f a => do
    let vf ← evalExpr h f
    let va ← evalExpr h a
    match vf with
    | .fn r => applyRegistry h r (toNumber va) .nan
    | _ => .error (.err "is not a function")
  | .call2 f a b => do
    let vf ← evalExpr h f
    let va ← evalExpr h a
    let vb ← evalExpr h b
    match vf with
    | .fn r => applyRegistry h r (toNumber va) (toNumber vb)
    | _ => .error (.err "is not a function")

/-- Conversion of a runtime value to what the `typeof` test of the result
validation observes. -/
def toResVal : JsVal → JsResVal
  | .num n => .num n
  | _ => .nonNum

/-- Message of an early (parse) error of the host; it contains none of the
four guard words. -/
def synMsg : String := "SyntaxError: Unexpected token"

/-- The concrete evaluation host: lexing, parsing and evaluating the
sanitized text, modelling
`new Function(&quot;Math&quot;, &quot;return &quot; + sanitized)(mathContext)`
over the closed grammar described above. -/
def jsEval (h : MathHost) : EvalHost := fun s =>
  let cs := s.toList
  match tokenize (cs.length + 1) cs with
  | none => .thrown (.err synMsg)
  | some toks =>
    match parseAdd (8 * cs.length + 16) toks with
    | some (e, []) =>
      match evalExpr h e with
      | .ok v => .value (toResVal v)
      | .error t => .thrown t
    | _ => .thrown (.err synMsg)

/-- A concrete instantiation of the host transcendentals, used to evaluate
the development at concrete inputs; no claim depends on the values of the
transcendental primitives themselves. -/
def dummyHost : MathHost where
  hsin := fun _ => 0
  hcos := fun _ => 0
  htan := fun _ => 0
  hasin := fun _ => 0
  hacos := fun _ => 0
  hatan := fun _ => 0
  hlog10 := fun _ => 0
  hlog := fun _ => 0
  hsqrt := fun _ => 0
  hpow := fun _ _ => .finite 0
  hPI := 314159265358979323 / 100000000000000000
  hE := 271828182845904523 / 100000000000000000

/-! Model of `formatNumber` (lines 134-158).  The host number is carried as
a rational; the decimal operations (`toExponential`, `toPrecision`,
`toString`, `toLocaleString`) are implemented exactly on rationals, which
agrees with the host at every input whose double rounds to the same decimal
digits, in particular at every input evaluated below. -/

/-- Base-10 logarithm of a positive natural, as one less than its digit
count (0 is mapped to 0). -/
def natLog10 (n : Nat) : Nat :=
  (Nat.toDigits 10 n).length - 1

/-- Ceiling base-10 logarithm of a positive natural: the least `k` with
`m ≤ 10 ^ k`. -/
def natClog10 (m : Nat) : Nat :=
  if m ≤ 1 then 0 else (Nat.toDigits 10 (m - 1)).length

/-- Decimal exponent of a nonzero rational: the unique `e` with
`10 ^ e ≤ |q| < 10 ^ (e + 1)` (0 is mapped to 0). -/
def decExp (q : ℚ) : ℤ :=
  let a := |q|
  if 1 ≤ a then (natLog10 a.floor.toNat : ℤ)
  else -(natClog10 ((a.den + a.num.natAbs - 1) / a.num.natAbs) : ℤ)

/-- Integer power of ten on rationals. -/
def pow10 (i : ℤ) : ℚ :=
  if 0 ≤ i then (10 : ℚ) ^ i.toNat else 1 / (10 : ℚ) ^ (-i).toNat

/-- Numeric value produced by `num.toPrecision(12)`: the input rounded to
12 significant decimal digits. -/
def roundPrec12 (q : ℚ) : ℚ :=
  if q = 0 then 0
  else
    let scale := pow10 (11 - decExp q)
    (round (q * scale) : ℚ) / scale

/-- Count of decimal places of a rational with a terminating decimal
expansion: the least `t` with `q * 10 ^ t` integral (searched under a fuel
ample for every value reachable from a 12-significant-digit rounding). -/
def fracDigitsAux : Nat → ℚ → Nat → Nat
  | 0, _, t => t
  | fuel + 1, q, t =>
    if (q * pow10 (t : ℤ)).den = 1 then t else fracDigitsAux fuel q (t + 1)

/-- Least number of decimal places needed to write `q` positionally. -/
def fracDigits (q : ℚ) : Nat :=
  fracDigitsAux 400 q 0

/-- Drop of trailing zero characters from a digit run. -/
def dropTrailZeros (ds : List Char) : List Char :=
  (ds.reverse.dropWhile (fun c => c = '0')).reverse

/-- Run of `n` zero characters. -/
def zeroRun (n : ℤ) : String :=
  String.mk (List.replicate n.toNat '0')

/-- Model of the host number-to-string conversion at radix 10 for values
with a terminating decimal expansion: the shortest digit run `D` with
`|q| = 0.D * 10 ^ n` is printed positionally when `-6 < n ≤ 21` and in
exponential notation otherwise. -/
def jsToString (q : ℚ) : String :=
  if q = 0 then "0"
  else
    let sign := if q < 0 then "-" else ""
    let a := |q|
    let t := fracDigits a
    let digits0 := Nat.toDigits 10 (a * pow10 (t : ℤ)).num.toNat
    let ds := dropTrailZeros digits0
    let k : ℤ := ds.length
    let n : ℤ := decExp a + 1
    let body :=
      if k ≤ n ∧ n ≤ 21 then String.mk ds ++ zeroRun (n - k)
      else if 0 < n ∧ n < k then
        String.mk (ds.take n.toNat) ++ "." ++ String.mk (ds.drop n.toNat)
      else if -6 < n ∧ n ≤ 0 then "0." ++ zeroRun (-n) ++ String.mk ds
      else
        String.mk (ds.take 1) ++
          (if ds.length > 1 then "." ++ String.mk (ds.drop 1) else "") ++
          "e" ++ (if 0 ≤ n - 1 then "+" else "-") ++ toString (n - 1).natAbs
    sign ++ body

/-- Model of `num.toExponential(4)`: sign, one leading digit, four
fractional digits and a signed decimal exponent, with carry when the
mantissa rounds up to 10. -/
def toExponential4 (q : ℚ) : String :=
  if q = 0 then "0.0000e+0"
  else
    let sign := if q < 0 then "-" else ""
    let a := |q|
    let e := decExp a
    let m := round (a * pow10 (4 - e))
    let p : ℤ × ℤ := if m ≥ 100000 then (10000, e + 1) else (m, e)
    let ds := Nat.toDigits 10 p.1.toNat
    sign ++ String.mk (ds.take 1) ++ "." ++ String.mk (ds.drop 1) ++
      "e" ++ (if 0 ≤ p.2 then "+" else "-") ++ toString p.2.natAbs

/-- Grouping of an integer digit run in threes from the right, modelling
the default-locale group separator of `toLocaleString`. -/
def groupDigitsAux : Nat → List Char → List Char
  | 0, ds => ds
  | _ + 1, [] => []
  | fuel + 1, ds =>
    if ds.length ≤ 3 then ds
    else groupDigitsAux fuel (ds.take (ds.length - 3)) ++ [','] ++ ds.drop (ds.length - 3)

/-- Model of `num.toLocaleString(undefined, maximumFractionDigits 0)` on a
mathematical integer: sign and digits grouped in threes. -/
def toLocaleGrouped (q : ℚ) : String :=
  let sign := if q < 0 then "-" else ""
  let ds := Nat.toDigits 10 q.num.natAbs
  sign ++ String.mk (groupDigitsAux ds.length ds)

/-- Model of the replacement `formatted.replace(/\.?0+$/, &quot;&quot;)`:
when the string ends in zeros, the zeros are removed together with a dot
standing right before them. -/
def stripFormatted (s : String) : String :=
  let rev := s.toList.reverse
  if rev.head? = some '0' then
    let rest := rev.dropWhile (fun c => c = '0')
    let rest2 := if rest.head? = some '.' then rest.tail else rest
    String.mk rest2.reverse
  else s

/-- Model of `formatNumber` (lines 134-158): tiny magnitudes and huge
magnitudes are rendered exponentially with four fractional digits,
integers are rendered with locale grouping, and everything else is rounded
to 12 significant digits, written by the host conversion and stripped of
trailing zeros by the regex above. -/
def formatNumber (num : ℚ) : String :=
  if |num| < 1 / 10 ^ 10 ∧ num ≠ 0 then toExponential4 num
  else if |num| > 10 ^ 9 then toExponential4 num
  else if num.den = 1 then toLocaleGrouped num
  else stripFormatted (jsToString (roundPrec12 num))

/-! Helper lemmas about the cache and the evaluation wrapper. -/

theorem mem_of_cacheGet {c : Cache} {k : String} {v : ℚ}
    (h : cacheGet c k = some v) : (k, v) ∈ c := by
  induction c with
  | nil => simp [cacheGet] at h
  | cons p rest ih =>
    obtain ⟨k1, v1⟩ := p
    by_cases hk : k1 = k
    · subst hk
      simp [cacheGet] at h
      subst h
      exact List.mem_cons_self _ _
    · simp [cacheGet, hk] at h
      exact List.mem_cons_of_mem _ (ih h)

theorem cacheGet_tail_none {c : Cache} {k : String}
    (h : cacheGet c k = none) : cacheGet c.tail k = none := by
  cases c with
  | nil => exact h
  | cons p rest =>
    obtain ⟨k1, v1⟩ := p
    by_cases hk : k1 = k <;> simp_all [cacheGet]

theorem cacheGet_evict_none {c : Cache} {k : String}
    (h : cacheGet c k = none) : cacheGet (cacheEvict c) k = none := by
  unfold cacheEvict
  split
  · exact cacheGet_tail_none h
  · exact h

theorem mem_cacheSet {c : Cache} {k : String} {v : ℚ} {p : String × ℚ}
    (h : p ∈ cacheSet c k v) : p = (k, v) ∨ p ∈ c := by
  induction c with
  | nil => simpa [cacheSet] using h
  | cons q rest ih =>
    obtain ⟨k1, v1⟩ := q
    by_cases hk : k1 = k
    · subst hk
      simp [cacheSet] at h
      rcases h with h | h
      · exact Or.inl h
      · exact Or.inr (List.mem_cons_of_mem _ h)
    · simp [cacheSet, hk] at h
      rcases h with h | h
      · exact Or.inr (by simp [h])
      · rcases ih h with h1 | h1
        · exact Or.inl h1
        · exact Or.inr (List.mem_cons_of_mem _ h1)

theorem cacheSet_length_le (c : Cache) (k : String) (v : ℚ) :
    (cacheSet c k v).length ≤ c.length + 1 := by
  induction c with
  | nil => simp [cacheSet]
  | cons q rest ih =>
    obtain ⟨k1, v1⟩ := q
    by_cases hk : k1 = k
    · simp [cacheSet, hk]
    · simp [cacheSet, hk]
      omega

theorem cacheEvict_length {c : Cache} (h : c.length ≤ 101) :
    (cacheEvict c).length ≤ 100 := by
  unfold cacheEvict
  split
  · next hgt => simp only [List.length_tail]; omega
  · next hle => omega

theorem consistent_evict {host : EvalHost} {c : Cache}
    (hc : Consistent host c) : Consistent host (cacheEvict c) := by
  intro p hp
  apply hc
  unfold cacheEvict at hp
  split at hp
  · exact List.mem_of_mem_tail hp
  · exact hp

/-- On a consistent cache the wrapper returns exactly the pipeline result:
a hit returns the stored pipeline value and a miss computes it. -/
theorem safeEvaluate_fst {host : EvalHost} {c : Cache} {e : String}
    (hc : Consistent host c) :
    (safeEvaluate host c e).1 = pipelineEval host e := by
  have hc1 := consistent_evict hc
  simp only [safeEvaluate]
  split
  · next v hget => exact (hc1 _ (mem_of_cacheGet hget)).symm
  · next hget =>
    split
    · next r heq => exact heq.symm
    · next k heq => exact heq.symm

/-- Consistency is preserved by a call: only pipeline results are stored. -/
theorem consistent_safeEvaluate {host : EvalHost} {c : Cache} {e : String}
    (hc : Consistent host c) :
    Consistent host (safeEvaluate host c e).2 := by
  have hc1 := consistent_evict hc
  simp only [safeEvaluate]
  split
  · exact hc1
  · next hget =>
    split
    · next r heq =>
      intro p hp
      rcases mem_cacheSet hp with h1 | h1
      · rw [h1]
        exact heq
      · exact hc1 p h1
    · exact hc1

/-- A failed call returns the evicted cache unchanged, with no binding for
the key. -/
theorem safeEvaluate_error {host : EvalHost} {c : Cache} {e : String}
    {k : CalculationError} (h : (safeEvaluate host c e).1 = .error k) :
    cacheGet (cacheEvict c) e = none ∧ pipelineEval host e = .error k ∧
      (safeEvaluate host c e).2 = cacheEvict c := by
  revert h
  simp only [safeEvaluate]
  split
  · next v hget => intro h; cases h
  · next hget =>
    split
    · next r heq => intro h; cases h
    · next k1 heq =>
      intro h
      cases h
      exact ⟨hget, heq, rfl⟩

/-- Bound actually maintained by the lazy eviction of lines 81-84: a call
entered with at most 101 entries leaves at most 101 entries (the eviction
fires only once the size already exceeds 100, before the next lookup). -/
theorem safeEvaluate_length_le {host : EvalHost} {c : Cache} {e : String}
    (h : c.length ≤ 101) : ((safeEvaluate host c e).2).length ≤ 101 := by
  have h1 : (cacheEvict c).length ≤ 100 := cacheEvict_length h
  simp only [safeEvaluate]
  split
  · next v _ =>
    show (cacheEvict c).length ≤ 101
    omega
  · next _ =>
    split
    · next r _ =>
      show (cacheSet (cacheEvict c) e r).length ≤ 101
      have := cacheSet_length_le (cacheEvict c) e r
      omega
    · next k _ =>
      show (cacheEvict c).length ≤ 101
      omega

/-- Cache produced by evaluating a list of expressions in order through
`safeEvaluate` with the concrete host, starting from the empty cache. -/
def insertKeys (es : List String) : Cache :=
  es.foldl (fun acc e => (safeEvaluate (jsEval dummyHost) acc e).2) []

/-- Decimal names of `0, 1, ..., n - 1`: pairwise distinct expressions,
each of which evaluates to a finite number. -/
def natKeys (n : Nat) : List String :=
  (List.range n).map (fun k => toString k)

set_option maxRecDepth 10000

/-- C1, counterexample.  After inserting the 101 distinct expression keys
`&quot;0&quot;, ..., &quot;100&quot;` through `evaluate`, the cache holds 101
entries (not 100) and the first-inserted key `&quot;0&quot;` is still
present, refuting the claimed 100-entry bound and the claimed eviction of
the first key at the 101st insertion. -/
theorem C1_counterexample :
    (insertKeys (natKeys 101)).length = 101 ∧
    cacheGet (insertKeys (natKeys 101)) "0" = some 0 ∧
    cacheGet (insertKeys (natKeys 101)) "100" = some 100 ∧
    ¬((insertKeys (natKeys 101)).length = 100 ∧
      cacheGet (insertKeys (natKeys 101)) "0" = none) := by
  decide

/-- C1, amended.  The cache never grows past 101 entries, and eviction is
first-in-first-out but lazy: a call evicts the oldest entry only when the
size already exceeds 100 on entry.  Hence 101 distinct insertions leave
all 101 entries, with the first key still present, and the 102nd distinct
insertion evicts exactly the first-inserted key, leaving 101 entries with
the 102nd present. -/
theorem C1_size_bound_fifo :
    (∀ (host : EvalHost) (c : Cache) (e : String), c.length ≤ 101 →
      ((safeEvaluate host c e).2).length ≤ 101) ∧
    (insertKeys (natKeys 101)).length = 101 ∧
    cacheGet (insertKeys (natKeys 101)) "0" = some 0 ∧
    (insertKeys (natKeys 102)).length = 101 ∧
    cacheGet (insertKeys (natKeys 102)) "0" = none ∧
    cacheGet (insertKeys (natKeys 102)) "101" = some 101 := by
  refine ⟨fun host c e h => safeEvaluate_length_le h, ?_⟩
  decide

/-- C1, witness for the amended bound at a concrete input. -/
theorem C1_size_bound_fifo_witness :
    ((safeEvaluate (jsEval dummyHost) [] "5").2).length ≤ 101 :=
  C1_size_bound_fifo.1 (jsEval dummyHost) [] "5" (by decide)

/-- Consistency of the empty cache, used to instantiate the wrapper
lemmas at concrete inputs. -/
theorem consistent_nil (host : EvalHost) : Consistent host ([] : Cache) :=
  fun p hp => absurd hp (List.not_mem_nil p)

instance {ε α : Type} [DecidableEq ε] [DecidableEq α] :
    DecidableEq (Except ε α) := fun a b =>
  match a, b with
  | .ok x, .ok y => decidable_of_iff (x = y) (by simp)
  | .error x, .error y => decidable_of_iff (x = y) (by simp)
  | .ok _, .error _ => isFalse (by simp)
  | .error _, .ok _ => isFalse (by simp)

/-- A character outside the allowed class falsifies the validation test. -/
theorem hasValidChars_false {s : String} {ch : Char}
    (hmem : ch ∈ s.toList) (hch : allowedChar ch = false) :
    hasValidChars s = false := by
  unfold hasValidChars
  have hall : s.toList.all allowedChar = false :=
    List.all_eq_false.mpr ⟨ch, hmem, by simp [hch]⟩
  rw [hall, Bool.and_false]

/-- A failed character-class test makes the pipeline fail with INVALID. -/
theorem pipeline_invalid_chars {host : EvalHost} {e : String}
    (h : hasValidChars (sanitize e) = false) :
    pipelineEval host e = .error .INVALID := by
  unfold pipelineEval
  simp [h]

/-- A returned value that is not a finite number makes the pipeline fail
with INVALID (the rethrow of `Error(CalculationError.INVALID)` raised by
the result validation). -/
theorem pipeline_value_invalid {host : EvalHost} {e : String} {v : JsResVal}
    (hvalid : hasValidChars (sanitize e) = true)
    (hbal : countChar (sanitize e) '(' = countChar (sanitize e) ')')
    (heq : host (sanitize e) = .value v)
    (hnf : ∀ q : ℚ, v ≠ .num (.finite q)) :
    pipelineEval host e = .error .INVALID := by
  unfold pipelineEval
  simp only [hvalid, Bool.not_true, Bool.false_eq_true, if_false, hbal,
    ne_eq, not_true_eq_false, heq]
  match v, hnf with
  | .num (.finite q), hnf => exact absurd rfl (hnf q)
  | .num .posInf, _ => decide
  | .num .negInf, _ => decide
  | .num .nan, _ => decide
  | .nonNum, _ => decide

/-- A thrown value makes the pipeline fail with its classification. -/
theorem pipeline_thrown {host : EvalHost} {e : String} {t : JsThrown}
    (hvalid : hasValidChars (sanitize e) = true)
    (hbal : countChar (sanitize e) '(' = countChar (sanitize e) ')')
    (heq : host (sanitize e) = .thrown t) :
    pipelineEval host e = .error (classifyThrown t) := by
  unfold pipelineEval
  simp only [hvalid, Bool.not_true, Bool.false_eq_true, if_false, hbal,
    ne_eq, not_true_eq_false, heq]

/-- C2, counterexample.  The input `abc(1)` is a letter sequence outside
the function registry, yet `evaluate` fails with SYNTAX, not INVALID: the
reference failure `abc is not defined` raised by the host matches none of
the four message guards, and the catch block maps every such `Error` to
SYNTAX. -/
theorem C2_counterexample :
    (safeEvaluate (jsEval dummyHost) [] "abc(1)").1 = .error .SYNTAX ∧
    CalculationError.SYNTAX ≠ CalculationError.INVALID := by
  decide

/-- C2, amended.  An input with a character outside the allowed class
always fails with INVALID, and so does an input whose evaluation returns a
non-numeric or non-finite value (`10/0` in particular); but an input whose
letter sequence is outside the function registry raises a reference
failure that the catch block classifies as SYNTAX, not INVALID.  No such
input silently evaluates. -/
theorem C2_invalid_classification :
    (∀ (host : EvalHost) (c : Cache) (e : String), Consistent host c →
      (∃ ch ∈ (sanitize e).toList, allowedChar ch = false) →
      (safeEvaluate host c e).1 = .error .INVALID) ∧
    (∀ (host : EvalHost) (c : Cache) (e : String) (v : JsResVal),
      Consistent host c →
      hasValidChars (sanitize e) = true →
      countChar (sanitize e) '(' = countChar (sanitize e) ')' →
      host (sanitize e) = .value v →
      (∀ q : ℚ, v ≠ .num (.finite q)) →
      (safeEvaluate host c e).1 = .error .INVALID) ∧
    (safeEvaluate (jsEval dummyHost) [] "10/0").1 = .error .INVALID ∧
    (safeEvaluate (jsEval dummyHost) [] "1;2").1 = .error .INVALID ∧
    (safeEvaluate (jsEval dummyHost) [] "abc(1)").1 = .error .SYNTAX := by
  refine ⟨?_, ?_, by decide, by decide, by decide⟩
  · intro host c e hc ⟨ch, hmem, hch⟩
    rw [safeEvaluate_fst hc]
    exact pipeline_invalid_chars (hasValidChars_false hmem hch)
  · intro host c e v hc hvalid hbal heq hnf
    rw [safeEvaluate_fst hc]
    exact pipeline_value_invalid hvalid hbal heq hnf

/-- C2, witness at a concrete disallowed-character input. -/
theorem C2_invalid_classification_witness :
    (safeEvaluate (jsEval dummyHost) [] "2;2").1 = .error .INVALID :=
  C2_invalid_classification.1 (jsEval dummyHost) [] "2;2"
    (consistent_nil _) ⟨';', by decide, by decide⟩

/-- C3, counterexample.  A failure matching none of the recognized guards
does not map to UNKNOWN: the reference failure `xyz is not defined` is an
`Error` instance, and the catch block maps every unmatched `Error` to
SYNTAX, as the call `xyz(5)` shows end to end. -/
theorem C3_counterexample :
    classifyThrown (.err "xyz is not defined") = .SYNTAX ∧
    CalculationError.SYNTAX ≠ CalculationError.UNKNOWN ∧
    (safeEvaluate (jsEval dummyHost) [] "xyz(5)").1 = .error .SYNTAX := by
  decide

/-- C3, amended.  Every failure raised during evaluation is reclassified
into exactly one of the six kinds: the result of a throwing evaluation is
always `classifyThrown` of the thrown value; an `Error` whose message
matches none of the Domain/Undefined/Overflow/Invalid guards maps to
SYNTAX; only a thrown non-`Error` value maps to UNKNOWN. -/
theorem C3_error_mapping :
    (∀ (host : EvalHost) (c : Cache) (e : String) (t : JsThrown),
      Consistent host c →
      hasValidChars (sanitize e) = true →
      countChar (sanitize e) '(' = countChar (sanitize e) ')' →
      host (sanitize e) = .thrown t →
      (safeEvaluate host c e).1 = .error (classifyThrown t)) ∧
    (∀ m : String, containsStr m "Domain" = false →
      containsStr m "Undefined" = false →
      containsStr m "Overflow" = false →
      containsStr m "Invalid" = false →
      classifyThrown (.err m) = .SYNTAX) ∧
    classifyThrown .nonError = .UNKNOWN := by
  refine ⟨?_, ?_, rfl⟩
  · intro host c e t hc hvalid hbal heq
    rw [safeEvaluate_fst hc]
    exact pipeline_thrown hvalid hbal heq
  · intro m h1 h2 h3 h4
    simp [classifyThrown, h1, h2, h3, h4]

/-- C3, witness: a host throwing a non-`Error` value surfaces as UNKNOWN
through the wrapper. -/
theorem C3_error_mapping_witness :
    (safeEvaluate (fun _ => EvalOutcome.thrown JsThrown.nonError) [] "2+2").1 =
      .error (classifyThrown .nonError) :=
  C3_error_mapping.1 (fun _ => EvalOutcome.thrown JsThrown.nonError) [] "2+2"
    JsThrown.nonError (consistent_nil _) (by decide) (by decide) rfl

/-- C5.  Calling evaluate twice with the identical expression string
yields the identical result: on any consistent cache both calls return the
pipeline value of the expression, so a cache hit never diverges from the
miss that would have computed it. -/
theorem C5_idempotent :
    ∀ (host : EvalHost) (c : Cache) (e : String), Consistent host c →
      (safeEvaluate host (safeEvaluate host c e).2 e).1 =
        (safeEvaluate host c e).1 := by
  intro host c e hc
  rw [safeEvaluate_fst hc, safeEvaluate_fst (consistent_safeEvaluate hc)]

/-- C5, witness: the repeated call on `2+2` returns the first result, 4. -/
theorem C5_idempotent_witness :
    (safeEvaluate (jsEval dummyHost)
        (safeEvaluate (jsEval dummyHost) [] "2+2").2 "2+2").1 =
      (safeEvaluate (jsEval dummyHost) [] "2+2").1 ∧
    (safeEvaluate (jsEval dummyHost) [] "2+2").1 = .ok 4 :=
  ⟨C5_idempotent (jsEval dummyHost) [] "2+2" (consistent_nil _), by decide⟩

/-- C6.  On any consistent cache, an expression that passes the character
class but whose parenthesis counts differ fails with SYNTAX (the balance
check precedes evaluation), and with no other kind; in particular the
input `(1+2` fails with SYNTAX. -/
theorem C6_balance_syntax :
    (∀ (host : EvalHost) (c : Cache) (e : String), Consistent host c →
      hasValidChars (sanitize e) = true →
      countChar (sanitize e) '(' ≠ countChar (sanitize e) ')' →
      (safeEvaluate host c e).1 = .error .SYNTAX) ∧
    (safeEvaluate (jsEval dummyHost) [] "(1+2").1 = .error .SYNTAX := by
  refine ⟨?_, by decide⟩
  intro host c e hc hvalid hbal
  rw [safeEvaluate_fst hc]
  unfold pipelineEval
  simp [hvalid, hbal]

/-- C6, witness at a concrete unbalanced input with whitespace. -/
theorem C6_balance_syntax_witness :
    (safeEvaluate (jsEval dummyHost) [] "( 1 + 2").1 = .error .SYNTAX :=
  C6_balance_syntax.1 (jsEval dummyHost) [] "( 1 + 2" (consistent_nil _)
    (by decide) (by decide)

/-- C10.  A failed call stores nothing under its key: after any call that
returns an error, the cache holds no binding for the expression, and a
repeated call re-runs validation and evaluation, producing the same error
instead of answering from the cache. -/
theorem C10_no_cache_on_error :
    ∀ (host : EvalHost) (c : Cache) (e : String) (k : CalculationError),
      (safeEvaluate host c e).1 = .error k →
      cacheGet (safeEvaluate host c e).2 e = none ∧
      (safeEvaluate host (safeEvaluate host c e).2 e).1 = .error k := by
  intro host c e k herr
  obtain ⟨hnone, hpipe, hc2⟩ := safeEvaluate_error herr
  refine ⟨by rw [hc2]; exact hnone, ?_⟩
  rw [hc2]
  have hnone2 : cacheGet (cacheEvict (cacheEvict c)) e = none :=
    cacheGet_evict_none hnone
  simp only [safeEvaluate, hnone2, hpipe]

/-- C10, witness at the failing input `10/0`. -/
theorem C10_no_cache_on_error_witness :
    cacheGet (safeEvaluate (jsEval dummyHost) [] "10/0").2 "10/0" = none ∧
    (safeEvaluate (jsEval dummyHost)
        (safeEvaluate (jsEval dummyHost) [] "10/0").2 "10/0").1 =
      .error .INVALID :=
  C10_no_cache_on_error (jsEval dummyHost) [] "10/0" .INVALID (by decide)

/-- C7, counterexample.  The literal call `evaluate(&quot;tan(90)&quot;)`
fails with SYNTAX, not UNDEFINED: the dynamically built function binds only
the name `Math`, so the bare identifier `tan` raises a reference failure,
which the catch block classifies as SYNTAX. -/
theorem C7_counterexample :
    (safeEvaluate (jsEval dummyHost) [] "tan(90)").1 = .error .SYNTAX ∧
    CalculationError.SYNTAX ≠ CalculationError.UNDEFINED := by
  decide

/-- C7, amended.  For every argument whose normalization lies within 1e-10
of 90 or of 270, `mathContext.tan` throws the UNDEFINED error rather than
returning an extreme value, the catch block classifies that error as
UNDEFINED, and the registry call `evaluate(&quot;Math.tan(90)&quot;)` fails
with UNDEFINED end to end; the bare spelling `tan(90)` instead fails with
SYNTAX because `tan` is not bound in the evaluation scope. -/
theorem C7_tan_asymptote :
    (∀ (h : MathHost) (x : ℚ),
      |normalize360 x - 90| < tol ∨ |normalize360 x - 270| < tol →
      ctxTan h x = .error (.err CalculationError.UNDEFINED.message)) ∧
    classifyThrown (.err CalculationError.UNDEFINED.message) = .UNDEFINED ∧
    (safeEvaluate (jsEval dummyHost) [] "Math.tan(90)").1 =
      .error .UNDEFINED := by
  refine ⟨?_, by decide, by decide⟩
  intro h x hx
  simp only [ctxTan]
  rw [if_pos hx]

/-- C7, witness at the concrete asymptote 90. -/
theorem C7_tan_asymptote_witness :
    ctxTan dummyHost 90 = .error (.err CalculationError.UNDEFINED.message) :=
  C7_tan_asymptote.1 dummyHost 90 (by decide)

/-- C8.  The named functions fail with the DOMAIN error exactly outside
their mathematical domains - asin and acos beyond `[-1, 1]`, log and ln at
non-positive arguments, sqrt at negative arguments - and inside those
domains they return the degree-based (for the inverse trig functions) or
direct host value without error; the catch block classifies the thrown
error as DOMAIN. -/
theorem C8_function_domains :
    ∀ (h : MathHost) (x : ℚ),
      (ctxAsin h x = .error (.err CalculationError.DOMAIN.message) ↔ 1 < |x|) ∧
      (|x| ≤ 1 → ctxAsin h x = .ok (h.hasin x * 180 / h.hPI)) ∧
      (ctxAcos h x = .error (.err CalculationError.DOMAIN.message) ↔ 1 < |x|) ∧
      (|x| ≤ 1 → ctxAcos h x = .ok (h.hacos x * 180 / h.hPI)) ∧
      (ctxLog h x = .error (.err CalculationError.DOMAIN.message) ↔ x ≤ 0) ∧
      (0 < x → ctxLog h x = .ok (h.hlog10 x)) ∧
      (ctxLn h x = .error (.err CalculationError.DOMAIN.message) ↔ x ≤ 0) ∧
      (0 < x → ctxLn h x = .ok (h.hlog x)) ∧
      (ctxSqrt h x = .error (.err CalculationError.DOMAIN.message) ↔ x < 0) ∧
      (0 ≤ x → ctxSqrt h x = .ok (h.hsqrt x)) ∧
      classifyThrown (.err CalculationError.DOMAIN.message) = .DOMAIN := by
  intro h x
  refine ⟨?_, ?_, ?_, ?_, ?_, ?_, ?_, ?_, ?_, ?_, by decide⟩
  · by_cases hx : 1 < |x| <;> simp [ctxAsin, hx]
  · intro hle
    simp [ctxAsin, not_lt.mpr hle]
  · by_cases hx : 1 < |x| <;> simp [ctxAcos, hx]
  · intro hle
    simp [ctxAcos, not_lt.mpr hle]
  · by_cases hx : x ≤ 0 <;> simp [ctxLog, hx]
  · intro hpos
    simp [ctxLog, not_le.mpr hpos]
  · by_cases hx : x ≤ 0 <;> simp [ctxLn, hx]
  · intro hpos
    simp [ctxLn, not_le.mpr hpos]
  · by_cases hx : x < 0 <;> simp [ctxSqrt, hx]
  · intro hle
    simp [ctxSqrt, not_lt.mpr hle]

/-- C8, witness at concrete in- and out-of-domain arguments. -/
theorem C8_function_domains_witness :
    ctxAsin dummyHost 2 = .error (.err CalculationError.DOMAIN.message) ∧
    ctxSqrt dummyHost (-1) = .error (.err CalculationError.DOMAIN.message) ∧
    ctxLog dummyHost 0 = .error (.err CalculationError.DOMAIN.message) ∧
    ctxSqrt dummyHost 4 = .ok (dummyHost.hsqrt 4) :=
  ⟨(C8_function_domains dummyHost 2).1.mpr (by decide),
   (C8_function_domains dummyHost (-1)).2.2.2.2.2.2.2.2.1.mpr (by decide),
   (C8_function_domains dummyHost 0).2.2.2.2.1.mpr (by decide),
   (C8_function_domains dummyHost 4).2.2.2.2.2.2.2.2.2.1 (by decide)⟩

/-- C4.  The non-integer formatting branch removes digits of the integer
part: the regex `/\.?0+$/` strips trailing zeros even when no decimal
point precedes them, so `formatNumber(10.000000000001)` - whose
12-significant-digit rounding renders as `10` - collapses to `1`, and
`formatNumber(1.5e-10)` - rendered exponentially as `1.5e-10` - collapses
to `1.5e-1`, contradicting the specified stripping of fractional zeros
only. -/
theorem C4_code_bug :
    formatNumber (10000000000001 / 1000000000000 : ℚ) = "1" ∧
    formatNumber (3 / 20000000000 : ℚ) = "1.5e-1" := by
  decide

/-- C9.  The formatter applies its rules in order: nonzero magnitudes
below 1e-10 and magnitudes above 1e9 are rendered by the four-digit
exponential conversion, remaining mathematical integers are rendered with
locale grouping and no fractional digits, so `formatNumber(1000000)` is
the grouped `1,000,000` with no decimal point, and
`formatNumber(0.00000000001)` is `1.0000e-11`. -/
theorem C9_format_order :
    (∀ q : ℚ, q ≠ 0 → |q| < 1 / 10 ^ 10 → formatNumber q = toExponential4 q) ∧
    (∀ q : ℚ, ¬(|q| < 1 / 10 ^ 10 ∧ q ≠ 0) → |q| > 10 ^ 9 →
      formatNumber q = toExponential4 q) ∧
    (∀ q : ℚ, ¬(|q| < 1 / 10 ^ 10 ∧ q ≠ 0) → ¬(|q| > 10 ^ 9) → q.den = 1 →
      formatNumber q = toLocaleGrouped q) ∧
    formatNumber 1000000 = "1,000,000" ∧
    '.' ∉ (formatNumber 1000000).toList ∧
    formatNumber (1 / 100000000000 : ℚ) = "1.0000e-11" := by
  refine ⟨?_, ?_, ?_, by decide, by decide, by decide⟩
  · intro q hq hlt
    unfold formatNumber
    rw [if_pos ⟨hlt, hq⟩]
  · intro q h1 h2
    unfold formatNumber
    rw [if_neg h1, if_pos h2]
  · intro q h1 h2 h3
    unfold formatNumber
    rw [if_neg h1, if_neg h2, if_pos h3]

/-- C9, witness at concrete inputs of the first two branches. -/
theorem C9_format_order_witness :
    formatNumber (1 / 20000000000000 : ℚ) =
      toExponential4 (1 / 20000000000000 : ℚ) ∧
    formatNumber (3000000000 : ℚ) = toExponential4 (3000000000 : ℚ) :=
  ⟨C9_format_order.1 _ (by decide) (by decide),
   C9_format_order.2.1 _ (by decide) (by decide)⟩

end Calculator
